import Mathlib

/-!
# Verification of the DiscordVoiceBotDemo audio relay pipeline

Shallow embedding of the relay broadcast server (`src/server/src/index.ts`)
and the bot-side consumer connector / stream adapter (the Discord bot entry
file).  Byte payloads are modelled as `List Nat`, socket identities as `Nat`
(no two live sockets share an identity), and the event-driven handlers as
pure step functions over explicit state.
-/

/-- WebSocket ready states, as exposed by the `ws` library
(`WebSocket.CONNECTING/OPEN/CLOSING/CLOSED`). -/
inductive ReadyState where
  | CONNECTING
  | OPEN
  | CLOSING
  | CLOSED
deriving DecidableEq, Repr

/-- The two roles the relay assigns to an inbound connection. -/
inductive ClientRole where
  | bot
  | web
deriving DecidableEq, Repr

/-- Role classification performed in `wss.on("connection")`:
`const clientType = new URL(request.url!, "ws://localhost").searchParams.get("type")`,
then `if (clientType === "bot") { ... } else { /* assume web client */ }`.
`none` models an absent `type` query parameter. -/
def classifyClient (clientType : Option String) : ClientRole :=
  if clientType = some "bot" then ClientRole.bot else ClientRole.web

/-- One bot (consumer) connection as seen by the broadcast loop: its socket
ready state and the frames sent to it so far, in send order. -/
structure BotConn where
  id : Nat
  readyState : ReadyState
  inbox : List (List Nat)
deriving DecidableEq, Repr

/-- Body of the broadcast loop
(`if (botClient.readyState === WebSocket.OPEN) botClient.send(data)`). -/
def sendIfOpen (data : List Nat) (c : BotConn) : BotConn :=
  if c.readyState = ReadyState.OPEN then { c with inbox := c.inbox ++ [data] } else c

/-- The `ws.on("message")` handler on a web (producer) client: iterate over
all bot clients, sending the exact bytes to each one currently OPEN. -/
def broadcast (data : List Nat) (cs : List BotConn) : List BotConn :=
  cs.map (sendIfOpen data)

/-- Repeated invocation of the message handler on a sequence of producer
frames, in arrival order. -/
def broadcastAll (msgs : List (List Nat)) (cs : List BotConn) : List BotConn :=
  msgs.foldl (fun acc m => broadcast m acc) cs

theorem broadcast_map_sendIfOpen (msgs : List (List Nat)) (cs : List BotConn) :
    broadcastAll msgs cs
      = cs.map (fun c =>
          if c.readyState = ReadyState.OPEN
          then { c with inbox := c.inbox ++ msgs } else c) := by
  induction msgs generalizing cs with
  | nil =>
    simp only [broadcastAll, List.foldl_nil, List.append_nil]
    have h : (fun c : BotConn =>
        if c.readyState = ReadyState.OPEN then { c with inbox := c.inbox } else c)
        = fun c => c := by
      funext c
      have hc : ({ c with inbox := c.inbox } : BotConn) = c := rfl
      rw [hc]
      exact ite_self c
    rw [h, List.map_id']
  | cons m ms ih =>
    have step : broadcastAll (m :: ms) cs = broadcastAll ms (broadcast m cs) := rfl
    rw [step, ih, broadcast, List.map_map]
    congr 1
    funext c
    by_cases h : c.readyState = ReadyState.OPEN
    · simp [Function.comp, sendIfOpen, h]
    · simp [Function.comp, sendIfOpen, h]

/-- **C1.** Every data message from a producer connection is forwarded
verbatim, in arrival order, to every bot connection currently OPEN; bot
connections not OPEN are left untouched (silently skipped); and with an
empty consumer set the broadcast is a no-op returning the empty set
unchanged, with no other effect. -/
theorem producer_broadcast_exact_order (msgs : List (List Nat)) (cs : List BotConn) :
    broadcastAll msgs cs
      = cs.map (fun c =>
          if c.readyState = ReadyState.OPEN
          then { c with inbox := c.inbox ++ msgs } else c)
    ∧ broadcastAll msgs [] = [] := by
  refine ⟨broadcast_map_sendIfOpen msgs cs, ?_⟩
  rw [broadcast_map_sendIfOpen]
  rfl

/-- **C2.** An inbound connection is classified as consumer (bot) iff the
`type` query parameter equals the reserved token `"bot"`; every other value,
including an absent parameter, classifies it as producer (web). -/
theorem classify_bot_iff (t : Option String) :
    (classifyClient t = ClientRole.bot ↔ t = some "bot")
    ∧ classifyClient none = ClientRole.web := by
  constructor
  · constructor
    · intro h
      by_contra hne
      simp [classifyClient, hne] at h
    · intro h
      simp [classifyClient, h]
  · rfl

/-!
## Consumer Connector (bot side)

Embeds `connectToWebSocket` from the Discord bot entry file: the handlers
registered on the outbound `ws` connection.  The connector's state is the
ready state of the current socket plus the delays of the reconnect timers
scheduled by `setTimeout` and not yet fired, in schedule order.
-/

/-- The fixed reconnect delay: `setTimeout(..., 5000)` in the close handler. -/
def RECONNECT_DELAY : Nat := 5000

/-- Events dispatched to the connector: socket open / close / error, and the
firing of a scheduled reconnect timer. -/
inductive ConnEvent where
  | openEvt
  | closeEvt
  | errorEvt
  | timerFire
deriving DecidableEq, Repr

/-- State of the Consumer Connector: ready state of the current socket and
the pending reconnect-timer delays. -/
structure ConnectorState where
  wsState : ReadyState
  pendingDelays : List Nat
deriving DecidableEq, Repr

/-- `connectToWebSocket` is called at module load, so the initial state has a
socket in CONNECTING with no timer pending. -/
def initConnector : ConnectorState :=
  { wsState := ReadyState.CONNECTING, pendingDelays := [] }

/-- One handler dispatch of the connector: `ws.on("open")` only logs (socket
now OPEN); `ws.on("error")` only logs; `ws.on("close")` schedules exactly one
reconnect via `setTimeout(() => connectToWebSocket(), 5000)`; a firing timer
calls `connectToWebSocket()`, creating a fresh CONNECTING socket. -/
def stepConnector (s : ConnectorState) (e : ConnEvent) : ConnectorState :=
  match e with
  | ConnEvent.openEvt => { s with wsState := ReadyState.OPEN }
  | ConnEvent.closeEvt =>
      { wsState := ReadyState.CLOSED,
        pendingDelays := s.pendingDelays ++ [RECONNECT_DELAY] }
  | ConnEvent.errorEvt => s
  | ConnEvent.timerFire =>
      match s.pendingDelays with
      | [] => s
      | _ :: rest => { wsState := ReadyState.CONNECTING, pendingDelays := rest }

/-- The connector state after a trace of events from process start. -/
def runConnector (es : List ConnEvent) : ConnectorState :=
  es.foldl stepConnector initConnector

/-- Modelled from the spec (ReconnectState, §3): "attempt count ... reset to
zero attempts on a successful open".  Derived attempt counter over an event
trace: each reconnect attempt (timer firing into a new connect) increments
it, a successful open resets it to zero.  The source code maintains no such
counter; this definition exists to be compared against the source-derived
`ConnectorState`. -/
def specAttemptCount (es : List ConnEvent) : Nat :=
  es.foldl
    (fun n e =>
      match e with
      | ConnEvent.timerFire => n + 1
      | ConnEvent.openEvt => 0
      | _ => n) 0

/-- One full disconnect/reconnect cycle: the socket closes (scheduling the
timer), then the timer fires (reconnecting). -/
def reconnectCycle : List ConnEvent :=
  [ConnEvent.closeEvt, ConnEvent.timerFire]

/-- `n` consecutive disconnect/reconnect cycles. -/
def reconnectCycles : Nat → List ConnEvent
  | 0 => []
  | n + 1 => reconnectCycle ++ reconnectCycles n

/-- **C4.** Every close event schedules exactly one reconnect timer, with the
fixed delay of 5000 ms appended regardless of the current state (so no
attempt limit, no backoff, no jitter); an error event changes nothing; and
the only transition that consumes a scheduled timer is its own firing, which
immediately reconnects (fresh CONNECTING socket) — there is no cancellation
path. -/
theorem close_schedules_one_fixed_reconnect (s : ConnectorState) :
    (stepConnector s ConnEvent.closeEvt).pendingDelays
        = s.pendingDelays ++ [RECONNECT_DELAY]
    ∧ RECONNECT_DELAY = 5000
    ∧ stepConnector s ConnEvent.errorEvt = s
    ∧ (∀ e : ConnEvent,
        (stepConnector s e).pendingDelays = s.pendingDelays
        ∨ (stepConnector s e).pendingDelays = s.pendingDelays ++ [RECONNECT_DELAY]
        ∨ (e = ConnEvent.timerFire ∧ s.pendingDelays ≠ []
            ∧ stepConnector s e
                = { wsState := ReadyState.CONNECTING,
                    pendingDelays := s.pendingDelays.tail })) := by
  refine ⟨rfl, rfl, rfl, ?_⟩
  intro e
  cases e with
  | openEvt => exact Or.inl rfl
  | closeEvt => exact Or.inr (Or.inl rfl)
  | errorEvt => exact Or.inl rfl
  | timerFire =>
    cases h : s.pendingDelays with
    | nil =>
      left
      simp [stepConnector, h]
    | cons d rest =>
      right; right
      refine ⟨rfl, by simp [h], ?_⟩
      simp [stepConnector, h]

/-- Helper: a full reconnect cycle returns the connector to exactly the state
it was in before the disconnect, when no other timer was pending. -/
theorem runConnector_cycles (n : Nat) :
    runConnector (reconnectCycles n) = initConnector := by
  induction n with
  | zero => rfl
  | succ k ih =>
    have h : runConnector (reconnectCycles (k + 1))
        = (reconnectCycles k).foldl stepConnector initConnector := by
      simp [runConnector, reconnectCycles, reconnectCycle, List.foldl_append,
        stepConnector, initConnector, List.foldl_cons]
    rw [h]
    exact ih

/-- **C8 counterexample.** One completed reconnect cycle and a fresh start
lead to the *same* connector state even though the spec-level attempt count
differs (1 vs 0): the code-level connector state carries no attempt counter,
so no state query on the Consumer Connector can report the number of
reconnect attempts. -/
theorem no_observable_attempt_count :
    runConnector [ConnEvent.closeEvt, ConnEvent.timerFire] = runConnector []
    ∧ specAttemptCount [ConnEvent.closeEvt, ConnEvent.timerFire]
        ≠ specAttemptCount [] := by
  decide

/-- **C8 (amended).** Behaviorally the attempt history is erased by a
successful open: after any number `n` of completed disconnect/reconnect
cycles followed by a successful open, the connector state is identical to the
state after the very first successful open, and the spec-modelled attempt
count at that point is zero.  (But no attempt counter exists in the code's
connector state, per the counterexample.) -/
theorem reconnect_resets_attempt_history (n : Nat) :
    runConnector (reconnectCycles n ++ [ConnEvent.openEvt])
        = runConnector [ConnEvent.openEvt]
    ∧ specAttemptCount (reconnectCycles n ++ [ConnEvent.openEvt]) = 0 := by
  constructor
  · have h : runConnector (reconnectCycles n ++ [ConnEvent.openEvt])
        = [ConnEvent.openEvt].foldl stepConnector (runConnector (reconnectCycles n)) := by
      simp [runConnector, List.foldl_append]
    rw [h, runConnector_cycles]
    rfl
  · simp [specAttemptCount, List.foldl_append]

/-!
## Stream Adapter: websocket message → audio event → output stream

Embeds the `ws.on("message")` handler of `connectToWebSocket` (which emits an
`"audio"` event on the process-global emitter, tagged with the fixed
`userId: "websocket-audio"`) and the `emitter.on("audio")` listener installed
by the join-voice-channel command handler (which pushes the buffer straight
into the `audioStream` via `audioStream.emit("data", ...)`).
-/

/-- The payload of an `"audio"` event (`interface AudioData`). -/
structure AudioData where
  userId : String
  audioBuffer : List Nat
deriving DecidableEq, Repr

/-- The `ws.on("message")` handler of the connector: wrap the raw bytes with
the fixed source identity `"websocket-audio"`. -/
def wsMessageToAudio (data : List Nat) : AudioData :=
  { userId := "websocket-audio", audioBuffer := data }

/-- The `emitter.on("audio")` listener: `audioStream.emit("data",
audioData.audioBuffer)` — unconditionally append the buffer to the output
stream.  No queueing, no capacity check, no pause: the commented-out
`audioQueue` path is never engaged. -/
def onAudioListener (stream : List (List Nat)) (a : AudioData) : List (List Nat) :=
  stream ++ [a.audioBuffer]

/-- Processing a sequence of inbound websocket messages, in arrival order,
through the connector handler and the audio listener. -/
def processMessages (msgs : List (List Nat)) (stream : List (List Nat)) :
    List (List Nat) :=
  msgs.foldl (fun st m => onAudioListener st (wsMessageToAudio m)) stream

/-- **C5.** Every inbound message is handed to the Stream Adapter tagged with
the one fixed source identity `"websocket-audio"`, and the Adapter appends
every arriving frame to the output stream in arrival order: the stream after
processing is exactly the previous stream followed by the messages, whatever
the current stream length (no re-ordering, no drop, no bound on in-flight
data, no pausing of the source). -/
theorem frames_appended_in_order (msgs : List (List Nat)) (stream : List (List Nat)) :
    processMessages msgs stream = stream ++ msgs
    ∧ (∀ m : List Nat, (wsMessageToAudio m).userId = "websocket-audio"
        ∧ (wsMessageToAudio m).audioBuffer = m) := by
  constructor
  · induction msgs generalizing stream with
    | nil => simp [processMessages]
    | cons m ms ih =>
      have h : processMessages (m :: ms) stream
          = processMessages ms (stream ++ [m]) := rfl
      rw [h, ih, List.append_assoc]
      rfl
  · intro m
    exact ⟨rfl, rfl⟩

/-!
## Playback gating (join-voice-channel handler)

Embeds the order of operations in the command handler: the audio listener
feeds frames into the `audioStream` as they arrive, but
`audioPlayer.play(resource)` is invoked only inside the
`connection.on(VoiceConnectionStatus.Ready)` handler.
-/

/-- Events relevant to playback gating: the voice connection reporting
`Ready`, and an audio frame arriving from the emitter. -/
inductive PlaybackEvent where
  | readyEvt
  | frameEvt (f : List Nat)
deriving DecidableEq, Repr

/-- Playback-side state: whether the connection has reported Ready, whether
`audioPlayer.play(resource)` has been called, the frames sitting in the
stream/resource pipeline, and the frames actually fed to the audio player. -/
structure PlaybackState where
  ready : Bool
  playCalled : Bool
  buffered : List (List Nat)
  fedToSink : List (List Nat)
deriving DecidableEq, Repr

/-- State at the end of the command handler invocation: resource created and
connection subscribed, but not yet Ready and `play` not yet called. -/
def initPlayback : PlaybackState :=
  { ready := false, playCalled := false, buffered := [], fedToSink := [] }

/-- One playback event: the `VoiceConnectionStatus.Ready` handler calls
`audioPlayer.play(resource)` (the only call site of `play`); an arriving
frame is fed to the player only once `play` has been called, otherwise it
stays in the stream/resource pipeline. -/
def stepPlayback (s : PlaybackState) (e : PlaybackEvent) : PlaybackState :=
  match e with
  | PlaybackEvent.readyEvt => { s with ready := true, playCalled := true }
  | PlaybackEvent.frameEvt f =>
      if s.playCalled
      then { s with fedToSink := s.fedToSink ++ [f] }
      else { s with buffered := s.buffered ++ [f] }

/-- Playback state after a trace of events from the end of the handler. -/
def runPlayback (es : List PlaybackEvent) : PlaybackState :=
  es.foldl stepPlayback initPlayback

theorem playback_invariant (es : List PlaybackEvent) :
    ((runPlayback es).playCalled = true → (runPlayback es).ready = true)
    ∧ ((runPlayback es).playCalled = false → (runPlayback es).fedToSink = []) := by
  have main : ∀ (l : List PlaybackEvent) (s : PlaybackState),
      (s.playCalled = true → s.ready = true)
      → (s.playCalled = false → s.fedToSink = [])
      → ((l.foldl stepPlayback s).playCalled = true
            → (l.foldl stepPlayback s).ready = true)
        ∧ ((l.foldl stepPlayback s).playCalled = false
            → (l.foldl stepPlayback s).fedToSink = []) := by
    intro l
    induction l with
    | nil => intro s h1 h2; exact ⟨h1, h2⟩
    | cons e rest ih =>
      intro s h1 h2
      cases e with
      | readyEvt =>
        exact ih _ (fun _ => rfl) (fun h => by simp [stepPlayback] at h)
      | frameEvt f =>
        by_cases hp : s.playCalled = true
        · refine ih _ ?_ ?_
          · intro _
            simp [stepPlayback, hp]
            exact h1 hp
          · intro hcontra
            simp [stepPlayback, hp] at hcontra
        · have hp' : s.playCalled = false := by
            cases h : s.playCalled
            · rfl
            · exact absurd h hp
          refine ih _ ?_ ?_
          · intro hcall
            simp [stepPlayback, hp'] at hcall
          · intro _
            simp [stepPlayback, hp']
            exact h2 hp'
  exact main es initPlayback (fun h => by simp [initPlayback] at h) (fun _ => rfl)

/-- **C6.** The first (and only) call of `audioPlayer.play` happens inside
the Ready handler, so in every reachable playback state `play` has been
called only if the connection has reported Ready, and no frame has been fed
to the sink before that: frames arriving before readiness sit in the
stream/resource pipeline (buffered or lost downstream) and are never
force-flushed to the not-yet-ready sink. -/
theorem play_gated_on_ready (es : List PlaybackEvent) :
    ((runPlayback es).playCalled = true → (runPlayback es).ready = true)
    ∧ ((runPlayback es).ready = false → (runPlayback es).fedToSink = []) := by
  obtain ⟨h1, h2⟩ := playback_invariant es
  refine ⟨h1, fun hr => ?_⟩
  apply h2
  cases hp : (runPlayback es).playCalled
  · rfl
  · rw [h1 hp] at hr
    exact absurd hr (by simp)

/-- **C6 witness.** Concrete traces: a frame then Ready gives a ready state;
a lone frame with no Ready feeds nothing to the sink. -/
theorem play_gated_on_ready_witness :
    (runPlayback [PlaybackEvent.frameEvt [1, 2], PlaybackEvent.readyEvt]).ready = true
    ∧ (runPlayback [PlaybackEvent.frameEvt [1, 2]]).fedToSink = [] := by
  constructor
  · exact (play_gated_on_ready
      [PlaybackEvent.frameEvt [1, 2], PlaybackEvent.readyEvt]).1 (by decide)
  · exact (play_gated_on_ready [PlaybackEvent.frameEvt [1, 2]]).2 (by decide)

/-!
## Process-global emitter and the join-voice-channel handler

`export const emitter = new EventEmitter()` is a module-level singleton.
Each invocation of the join-voice-channel command handler creates a fresh
`audioStream` and calls `emitter.on("audio", ...)` with a listener closing
over that stream; no invocation ever calls `emitter.off` /
`removeListener`.  `emitter.emit("audio", ...)` invokes every registered
listener in registration order.
-/

/-- Per-emitter state: one output stream per registered `"audio"` listener,
in registration order.  The number of listeners is the list length. -/
structure EmitterState where
  streams : List (List (List Nat))
deriving DecidableEq, Repr

/-- No listeners are registered at module load. -/
def initEmitter : EmitterState :=
  { streams := [] }

/-- The join-voice-channel handler: registers one new `"audio"` listener
writing into a fresh (empty) audio stream; nothing is removed. -/
def joinVoiceChannelHandler (s : EmitterState) : EmitterState :=
  { streams := s.streams ++ [[]] }

/-- `emitter.emit("audio", ...)`: every registered listener appends the frame
to its own stream. -/
def emitAudio (s : EmitterState) (frame : List Nat) : EmitterState :=
  { streams := s.streams.map (fun st => st ++ [frame]) }

/-- `n` successive invocations of the join-voice-channel handler. -/
def joinN : Nat → EmitterState → EmitterState
  | 0, s => s
  | n + 1, s => joinVoiceChannelHandler (joinN n s)

theorem joinN_streams (n : Nat) :
    (joinN n initEmitter).streams = List.replicate n [] := by
  induction n with
  | zero => rfl
  | succ k ih =>
    show (joinVoiceChannelHandler (joinN k initEmitter)).streams
        = List.replicate (k + 1) []
    simp [joinVoiceChannelHandler, ih, List.replicate_succ']

/-- **C9.** Every handler invocation adds one listener and no event removes
one, so after `n` invocations there are `n` registered streams; a frame then
emitted on the global emitter is written to *all* `n` streams ever created
(each stream ends up holding exactly that frame), not only the most recent
one. -/
theorem emitter_listeners_accumulate (n : Nat) (f : List Nat) :
    (joinN n initEmitter).streams.length = n
    ∧ (emitAudio (joinN n initEmitter) f).streams = List.replicate n [f]
    ∧ (∀ s : EmitterState,
        (joinVoiceChannelHandler s).streams.length = s.streams.length + 1
        ∧ (emitAudio s f).streams.length = s.streams.length) := by
  refine ⟨?_, ?_, ?_⟩
  · rw [joinN_streams, List.length_replicate]
  · simp [emitAudio, joinN_streams, List.map_replicate]
  · intro s
    constructor
    · simp [joinVoiceChannelHandler]
    · simp [emitAudio]

/-!
## Relay connection lifecycle (registry state machine)

Embeds the `wss.on("connection")` handler of `src/server/src/index.ts`
together with the per-socket handlers it registers.  `roles` records, for
every socket that ever completed the handshake, which branch of the
classification it took (the handlers registered on the socket depend on that
branch and persist for the socket's lifetime).  `openIds` holds sockets
currently OPEN, `closedIds` sockets whose close event has fired, and
`delivered` the frames sent to each socket.
-/

/-- Key lookup in an association list of socket roles (most recent first). -/
def lookupRole : List (Nat × ClientRole) → Nat → Option ClientRole
  | [], _ => none
  | (k, v) :: rest, id => if k = id then some v else lookupRole rest id

/-- Events dispatched to the relay server: a completed handshake (with the
`type` query parameter), a data message from a socket, a close event, and a
socket error event. -/
inductive RelayEvent where
  | connect (id : Nat) (clientType : Option String)
  | message (id : Nat) (data : List Nat)
  | closeEvt (id : Nat)
  | errorEvt (id : Nat)
deriving DecidableEq, Repr

/-- Relay process state: the two registry sets (`botClients` / `webClients`),
the branch each socket was classified into, the sockets currently open,
the sockets closed, and the frames sent to each socket. -/
structure RelayState where
  botClients : List Nat
  webClients : List Nat
  roles : List (Nat × ClientRole)
  openIds : List Nat
  closedIds : List Nat
  delivered : List (Nat × List (List Nat))
deriving DecidableEq, Repr

/-- State before any connection arrives. -/
def initRelay : RelayState :=
  { botClients := [], webClients := [], roles := [], openIds := [],
    closedIds := [], delivered := [] }

/-- `botClient.send(data)`: append the frame to the given socket's delivery
record. -/
def deliverTo (id : Nat) (data : List Nat) (d : List (Nat × List (List Nat))) :
    List (Nat × List (List Nat)) :=
  d.map (fun p => if p.1 = id then (p.1, p.2 ++ [data]) else p)

/-- One event dispatch of the relay server, following the handler code:
on connection, classify by the `type` parameter and insert into exactly one
set (the socket is OPEN after the handshake); a data message has a handler
only on web sockets (the bot branch registers none) and broadcasts to every
bot client currently OPEN; a close event removes the socket from the set its
branch chose; an error event only logs. -/
def stepRelay (s : RelayState) (e : RelayEvent) : RelayState :=
  match e with
  | RelayEvent.connect id t =>
      match classifyClient t with
      | ClientRole.bot =>
          { s with botClients := id :: s.botClients,
                   roles := (id, ClientRole.bot) :: s.roles,
                   openIds := id :: s.openIds,
                   delivered := (id, []) :: s.delivered }
      | ClientRole.web =>
          { s with webClients := id :: s.webClients,
                   roles := (id, ClientRole.web) :: s.roles,
                   openIds := id :: s.openIds,
                   delivered := (id, []) :: s.delivered }
  | RelayEvent.message id data =>
      match lookupRole s.roles id with
      | some ClientRole.web =>
          let d2 := s.botClients.foldl
            (fun d b => if b ∈ s.openIds then deliverTo b data d else d)
            s.delivered
          { s with delivered := d2 }
      | _ => s
  | RelayEvent.closeEvt id =>
      match lookupRole s.roles id with
      | some ClientRole.bot =>
          { s with botClients := s.botClients.filter (fun b => decide (b ≠ id)),
                   openIds := s.openIds.filter (fun b => decide (b ≠ id)),
                   closedIds := id :: s.closedIds }
      | some ClientRole.web =>
          { s with webClients := s.webClients.filter (fun b => decide (b ≠ id)),
                   openIds := s.openIds.filter (fun b => decide (b ≠ id)),
                   closedIds := id :: s.closedIds }
      | none => s
  | RelayEvent.errorEvt _ => s

/-- Reachable relay states: starting from `initRelay`, any sequence of
events, where each handshake carries a fresh socket identity (no two
connections ever share an identity). -/
inductive ReachableRelay : RelayState → Prop where
  | init : ReachableRelay initRelay
  | connect (s : RelayState) (id : Nat) (t : Option String) :
      ReachableRelay s → lookupRole s.roles id = none →
      ReachableRelay (stepRelay s (RelayEvent.connect id t))
  | message (s : RelayState) (id : Nat) (m : List Nat) :
      ReachableRelay s → ReachableRelay (stepRelay s (RelayEvent.message id m))
  | closeE (s : RelayState) (id : Nat) :
      ReachableRelay s → ReachableRelay (stepRelay s (RelayEvent.closeEvt id))
  | errorE (s : RelayState) (id : Nat) :
      ReachableRelay s → ReachableRelay (stepRelay s (RelayEvent.errorEvt id))

/-- The inductive invariant of the registry: membership in each set implies
the matching role; open sockets sit in one of the two sets; closed sockets in
neither and not open; and everything tracked anywhere has a recorded role. -/
def RegInv (s : RelayState) : Prop :=
  (∀ id, id ∈ s.botClients → lookupRole s.roles id = some ClientRole.bot)
  ∧ (∀ id, id ∈ s.webClients → lookupRole s.roles id = some ClientRole.web)
  ∧ (∀ id, id ∈ s.openIds → id ∈ s.botClients ∨ id ∈ s.webClients)
  ∧ (∀ id, id ∈ s.closedIds →
      id ∉ s.openIds ∧ id ∉ s.botClients ∧ id ∉ s.webClients)
  ∧ (∀ id, id ∈ s.botClients ∨ id ∈ s.webClients ∨ id ∈ s.openIds
        ∨ id ∈ s.closedIds → lookupRole s.roles id ≠ none)

theorem lookupRole_cons (k : Nat) (v : ClientRole) (rest : List (Nat × ClientRole))
    (j : Nat) :
    lookupRole ((k, v) :: rest) j = if k = j then some v else lookupRole rest j := rfl

theorem reginv_init : RegInv initRelay := by
  refine ⟨?_, ?_, ?_, ?_, ?_⟩ <;> intro j hj <;> simp [initRelay] at hj

theorem reginv_connect (s : RelayState) (id : Nat) (t : Option String)
    (h : RegInv s) (hf : lookupRole s.roles id = none) :
    RegInv (stepRelay s (RelayEvent.connect id t)) := by
  obtain ⟨h1, h2, h3, h4, h5⟩ := h
  have hne : ∀ j, (j ∈ s.botClients ∨ j ∈ s.webClients ∨ j ∈ s.openIds
      ∨ j ∈ s.closedIds) → ¬(id = j) :=
    fun j hj he => h5 j hj (he ▸ hf)
  cases hc : classifyClient t with
  | bot =>
    simp only [stepRelay, hc]
    refine ⟨?_, ?_, ?_, ?_, ?_⟩
    · intro j hj
      rcases List.mem_cons.mp hj with rfl | hj'
      · simp [lookupRole]
      · rw [lookupRole_cons, if_neg (hne j (Or.inl hj'))]
        exact h1 j hj'
    · intro j hj
      rw [lookupRole_cons, if_neg (hne j (Or.inr (Or.inl hj)))]
      exact h2 j hj
    · intro j hj
      rcases List.mem_cons.mp hj with rfl | hj'
      · exact Or.inl (List.mem_cons_self _ _)
      · rcases h3 j hj' with hb | hw
        · exact Or.inl (List.mem_cons_of_mem _ hb)
        · exact Or.inr hw
    · intro j hj
      have hcl := h4 j hj
      have hne' : ¬(id = j) := hne j (Or.inr (Or.inr (Or.inr hj)))
      refine ⟨?_, ?_, hcl.2.2⟩
      · intro hmem
        rcases List.mem_cons.mp hmem with rfl | h'
        · exact hne' rfl
        · exact hcl.1 h'
      · intro hmem
        rcases List.mem_cons.mp hmem with rfl | h'
        · exact hne' rfl
        · exact hcl.2.1 h'
    · intro j hj
      rw [lookupRole_cons]
      by_cases he : id = j
      · simp [he]
      · rw [if_neg he]
        apply h5 j
        rcases hj with hb | hw | ho | hc2
        · rcases List.mem_cons.mp hb with rfl | h'
          · exact absurd rfl he
          · exact Or.inl h'
        · exact Or.inr (Or.inl hw)
        · rcases List.mem_cons.mp ho with rfl | h'
          · exact absurd rfl he
          · exact Or.inr (Or.inr (Or.inl h'))
        · exact Or.inr (Or.inr (Or.inr hc2))
  | web =>
    simp only [stepRelay, hc]
    refine ⟨?_, ?_, ?_, ?_, ?_⟩
    · intro j hj
      rw [lookupRole_cons, if_neg (hne j (Or.inl hj))]
      exact h1 j hj
    · intro j hj
      rcases List.mem_cons.mp hj with rfl | hj'
      · simp [lookupRole]
      · rw [lookupRole_cons, if_neg (hne j (Or.inr (Or.inl hj')))]
        exact h2 j hj'
    · intro j hj
      rcases List.mem_cons.mp hj with rfl | hj'
      · exact Or.inr (List.mem_cons_self _ _)
      · rcases h3 j hj' with hb | hw
        · exact Or.inl hb
        · exact Or.inr (List.mem_cons_of_mem _ hw)
    · intro j hj
      have hcl := h4 j hj
      have hne' : ¬(id = j) := hne j (Or.inr (Or.inr (Or.inr hj)))
      refine ⟨?_, hcl.2.1, ?_⟩
      · intro hmem
        rcases List.mem_cons.mp hmem with rfl | h'
        · exact hne' rfl
        · exact hcl.1 h'
      · intro hmem
        rcases List.mem_cons.mp hmem with rfl | h'
        · exact hne' rfl
        · exact hcl.2.2 h'
    · intro j hj
      rw [lookupRole_cons]
      by_cases he : id = j
      · simp [he]
      · rw [if_neg he]
        apply h5 j
        rcases hj with hb | hw | ho | hc2
        · exact Or.inl hb
        · rcases List.mem_cons.mp hw with rfl | h'
          · exact absurd rfl he
          · exact Or.inr (Or.inl h')
        · rcases List.mem_cons.mp ho with rfl | h'
          · exact absurd rfl he
          · exact Or.inr (Or.inr (Or.inl h'))
        · exact Or.inr (Or.inr (Or.inr hc2))

theorem reginv_close (s : RelayState) (id : Nat) (h : RegInv s) :
    RegInv (stepRelay s (RelayEvent.closeEvt id)) := by
  obtain ⟨h1, h2, h3, h4, h5⟩ := h
  cases hr : lookupRole s.roles id with
  | none =>
    simp only [stepRelay, hr]
    exact ⟨h1, h2, h3, h4, h5⟩
  | some r =>
    cases r with
    | bot =>
      simp only [stepRelay, hr]
      refine ⟨?_, h2, ?_, ?_, ?_⟩
      · intro j hj
        exact h1 j (List.mem_of_mem_filter hj)
      · intro j hj
        have hj' := List.mem_filter.mp hj
        have hne : j ≠ id := by simpa using hj'.2
        rcases h3 j hj'.1 with hb | hw
        · exact Or.inl (List.mem_filter.mpr ⟨hb, by simpa using hne⟩)
        · exact Or.inr hw
      · intro j hj
        rcases List.mem_cons.mp hj with rfl | hj'
        · refine ⟨?_, ?_, ?_⟩
          · intro hm
            have := (List.mem_filter.mp hm).2
            simp at this
          · intro hm
            have := (List.mem_filter.mp hm).2
            simp at this
          · intro hw
            have := hr.symm.trans (h2 j hw)
            simp at this
        · have hcl := h4 j hj'
          exact ⟨fun hm => hcl.1 (List.mem_of_mem_filter hm),
            fun hm => hcl.2.1 (List.mem_of_mem_filter hm), hcl.2.2⟩
      · intro j hj
        rcases hj with hb | hw | ho | hcl
        · exact h5 j (Or.inl (List.mem_of_mem_filter hb))
        · exact h5 j (Or.inr (Or.inl hw))
        · exact h5 j (Or.inr (Or.inr (Or.inl (List.mem_of_mem_filter ho))))
        · rcases List.mem_cons.mp hcl with rfl | h'
          · rw [hr]
            simp
          · exact h5 j (Or.inr (Or.inr (Or.inr h')))
    | web =>
      simp only [stepRelay, hr]
      refine ⟨h1, ?_, ?_, ?_, ?_⟩
      · intro j hj
        exact h2 j (List.mem_of_mem_filter hj)
      · intro j hj
        have hj' := List.mem_filter.mp hj
        have hne : j ≠ id := by simpa using hj'.2
        rcases h3 j hj'.1 with hb | hw
        · exact Or.inl hb
        · exact Or.inr (List.mem_filter.mpr ⟨hw, by simpa using hne⟩)
      · intro j hj
        rcases List.mem_cons.mp hj with rfl | hj'
        · refine ⟨?_, ?_, ?_⟩
          · intro hm
            have := (List.mem_filter.mp hm).2
            simp at this
          · intro hb
            have := hr.symm.trans (h1 j hb)
            simp at this
          · intro hm
            have := (List.mem_filter.mp hm).2
            simp at this
        · have hcl := h4 j hj'
          exact ⟨fun hm => hcl.1 (List.mem_of_mem_filter hm), hcl.2.1,
            fun hm => hcl.2.2 (List.mem_of_mem_filter hm)⟩
      · intro j hj
        rcases hj with hb | hw | ho | hcl
        · exact h5 j (Or.inl hb)
        · exact h5 j (Or.inr (Or.inl (List.mem_of_mem_filter hw)))
        · exact h5 j (Or.inr (Or.inr (Or.inl (List.mem_of_mem_filter ho))))
        · rcases List.mem_cons.mp hcl with rfl | h'
          · rw [hr]
            simp
          · exact h5 j (Or.inr (Or.inr (Or.inr h')))

theorem stepRelay_message_registry (s : RelayState) (id : Nat) (m : List Nat) :
    (stepRelay s (RelayEvent.message id m)).botClients = s.botClients
    ∧ (stepRelay s (RelayEvent.message id m)).webClients = s.webClients
    ∧ (stepRelay s (RelayEvent.message id m)).roles = s.roles
    ∧ (stepRelay s (RelayEvent.message id m)).openIds = s.openIds
    ∧ (stepRelay s (RelayEvent.message id m)).closedIds = s.closedIds := by
  cases hr : lookupRole s.roles id with
  | none => simp [stepRelay, hr]
  | some r => cases r <;> simp [stepRelay, hr]

theorem reginv_message (s : RelayState) (id : Nat) (m : List Nat) (h : RegInv s) :
    RegInv (stepRelay s (RelayEvent.message id m)) := by
  obtain ⟨e1, e2, e3, e4, e5⟩ := stepRelay_message_registry s id m
  unfold RegInv
  rw [e1, e2, e3, e4, e5]
  exact h

theorem reginv_reachable (s : RelayState) (h : ReachableRelay s) : RegInv s := by
  induction h with
  | init => exact reginv_init
  | connect s id t _ hf ih => exact reginv_connect s id t ih hf
  | message s id m _ ih => exact reginv_message s id m ih
  | closeE s id _ ih => exact reginv_close s id ih
  | errorE s id _ ih => exact ih

/-- **C3.** In every reachable relay state the two registry sets are
disjoint, an open socket sits in exactly one of them, a closed socket in
neither; and registry membership changes only on handshake and close: a
socket error event leaves the whole state (hence both sets) unchanged, and a
data message leaves both registry sets unchanged. -/
theorem registry_role_partition (s : RelayState) (h : ReachableRelay s) :
    (∀ id, ¬(id ∈ s.botClients ∧ id ∈ s.webClients))
    ∧ (∀ id, id ∈ s.openIds → id ∈ s.botClients ∨ id ∈ s.webClients)
    ∧ (∀ id, id ∈ s.closedIds → id ∉ s.botClients ∧ id ∉ s.webClients)
    ∧ (∀ u : RelayState, ∀ id, stepRelay u (RelayEvent.errorEvt id) = u)
    ∧ (∀ u : RelayState, ∀ id m,
        (stepRelay u (RelayEvent.message id m)).botClients = u.botClients
        ∧ (stepRelay u (RelayEvent.message id m)).webClients = u.webClients) := by
  obtain ⟨h1, h2, h3, h4, _⟩ := reginv_reachable s h
  refine ⟨?_, h3, ?_, ?_, ?_⟩
  · intro id hid
    have := (h1 id hid.1).symm.trans (h2 id hid.2)
    simp at this
  · intro id hid
    exact ⟨(h4 id hid).2.1, (h4 id hid).2.2⟩
  · intro u id
    rfl
  · intro u id m
    obtain ⟨e1, e2, _⟩ := stepRelay_message_registry u id m
    exact ⟨e1, e2⟩

/-- A small concrete run: a bot client (id 1) and a web client (id 2)
complete their handshakes. -/
def relayDemo : RelayState :=
  stepRelay (stepRelay initRelay (RelayEvent.connect 1 (some "bot")))
    (RelayEvent.connect 2 none)

theorem relayDemo_reachable : ReachableRelay relayDemo :=
  ReachableRelay.connect _ 2 none
    (ReachableRelay.connect _ 1 (some "bot") ReachableRelay.init (by decide))
    (by decide)

/-- **C3 witness.** The partition facts instantiated at the concrete
reachable state `relayDemo`. -/
theorem registry_role_partition_witness :
    ¬(1 ∈ relayDemo.botClients ∧ 1 ∈ relayDemo.webClients)
    ∧ stepRelay relayDemo (RelayEvent.errorEvt 1) = relayDemo := by
  have h := registry_role_partition relayDemo relayDemo_reachable
  exact ⟨h.1 1, h.2.2.2.1 relayDemo 1⟩

theorem stepRelay_message_bot (s : RelayState) (id : Nat) (m : List Nat)
    (h : lookupRole s.roles id = some ClientRole.bot) :
    stepRelay s (RelayEvent.message id m) = s := by
  simp [stepRelay, h]

/-- **C10.** The relay registers a message handler only on web (producer)
sockets; a socket classified as bot got no message handler, so any sequence
of messages originating from bot-classified sockets leaves the relay state
completely unchanged: nothing is forwarded to anyone and the registry is
untouched. -/
theorem bot_messages_discarded (s : RelayState) (pairs : List (Nat × List Nat))
    (h : ∀ p ∈ pairs, lookupRole s.roles p.1 = some ClientRole.bot) :
    pairs.foldl (fun t p => stepRelay t (RelayEvent.message p.1 p.2)) s = s := by
  induction pairs with
  | nil => rfl
  | cons p ps ih =>
    have h1 : stepRelay s (RelayEvent.message p.1 p.2) = s :=
      stepRelay_message_bot s p.1 p.2 (h p (List.mem_cons_self _ _))
    show ps.foldl (fun t q => stepRelay t (RelayEvent.message q.1 q.2))
        (stepRelay s (RelayEvent.message p.1 p.2)) = s
    rw [h1]
    exact ih (fun q hq => h q (List.mem_cons_of_mem _ hq))

/-- **C10 witness.** Two messages from the connected bot client (id 1) of
`relayDemo` leave the relay state unchanged. -/
theorem bot_messages_discarded_witness :
    [((1 : Nat), [7, 8]), ((1 : Nat), [9])].foldl
        (fun t p => stepRelay t (RelayEvent.message p.1 p.2)) relayDemo
      = relayDemo :=
  bot_messages_discarded relayDemo [(1, [7, 8]), (1, [9])] (by decide)

/-!
## Shutdown signal handling

Embeds the signal wiring of `src/server/src/index.ts`.  The handler body for
SIGHUP / SIGINT / SIGTERM runs synchronously: if `stopping` is already set it
returns; otherwise it sets `stopping`, logs, flushes, calls `server.close()`
and immediately calls `process.exit(0)`.  `server.close()` only *initiates*
closing: the server `close` event — on which the cleanup at the bottom of
`main` (close every tracked client, clear both sets) is registered — is
emitted asynchronously, only after all connections have ended.  Since
`process.exit(0)` terminates the process in the same synchronous block, the
event loop never dispatches that `close` event, and the registered cleanup
never runs on the signal path.
-/

/-- Whole-process state of the relay server: the relay registry, the
`stopping` flag, whether `server.close()` has been initiated, the sockets on
which `close()` has been invoked, and the exit code once `process.exit` has
run. -/
structure ServerProc where
  relay : RelayState
  stopping : Bool
  serverCloseInitiated : Bool
  closeCalled : List Nat
  exitCode : Option Nat
deriving DecidableEq, Repr

/-- The cleanup registered by `server.on("close", ...)`: `for (const client
of [...webClients, ...botClients]) client.close()`, then clear both sets.
Registered, but dead on the signal path (see `stepProc`). -/
def serverCloseHandler (p : ServerProc) : ServerProc :=
  { p with
    closeCalled := p.closeCalled ++ p.relay.webClients ++ p.relay.botClients,
    relay := { p.relay with webClients := [], botClients := [] } }

/-- The synchronous body of the signal handler: the `stopping` guard, then
`server.close()` (initiation only) and `process.exit(0)` in the same
synchronous block — no callback can be dispatched in between, so the cleanup
above is not invoked here. -/
def handleSignal (p : ServerProc) : ServerProc :=
  if p.stopping then p
  else { p with stopping := true, serverCloseInitiated := true,
                exitCode := some 0 }

/-- Event-loop level events relevant to shutdown: a termination signal, and
the asynchronous emission of the server `close` event. -/
inductive ProcEvent where
  | signal
  | serverCloseEvent
deriving DecidableEq, Repr

/-- Event dispatch: a process that has exited runs nothing further; a signal
runs `handleSignal`; the server `close` event runs the registered cleanup,
and can only be emitted at all once `server.close()` was initiated. -/
def stepProc (p : ServerProc) (e : ProcEvent) : ServerProc :=
  match p.exitCode with
  | some _ => p
  | none =>
      match e with
      | ProcEvent.signal => handleSignal p
      | ProcEvent.serverCloseEvent =>
          if p.serverCloseInitiated then serverCloseHandler p else p

/-- **C7.** What the signal path actually does, contradicting the claim: the
first signal sets the one-shot guard and exits with code 0, but it closes no
tracked client and clears neither registry set (`relay` and `closeCalled`
are unchanged), and after the exit no further event — in particular not the
server `close` event carrying the registered cleanup — changes the state;
a repeated signal while already stopping is ignored; and before any signal
the `close` event cannot fire (`server.close()` not yet initiated). -/
theorem signal_exits_without_cleanup (p : ServerProc) :
    (p.stopping = false →
        (handleSignal p).exitCode = some 0
        ∧ (handleSignal p).stopping = true
        ∧ (handleSignal p).relay = p.relay
        ∧ (handleSignal p).closeCalled = p.closeCalled
        ∧ (∀ e : ProcEvent, stepProc (handleSignal p) e = handleSignal p))
    ∧ (p.stopping = true → handleSignal p = p)
    ∧ (p.serverCloseInitiated = false →
        stepProc p ProcEvent.serverCloseEvent = p) := by
  refine ⟨?_, ?_, ?_⟩
  · intro hs
    have hif : handleSignal p
        = { p with stopping := true, serverCloseInitiated := true,
                   exitCode := some 0 } := by
      simp [handleSignal, hs]
    rw [hif]
    exact ⟨rfl, rfl, rfl, rfl, fun e => rfl⟩
  · intro hs
    simp [handleSignal, hs]
  · intro hsc
    cases he : p.exitCode with
    | some c => simp [stepProc, he]
    | none => simp [stepProc, he, hsc]

/-- The concrete failing input: both registry sets non-empty (bot client 1,
web client 2), no shutdown in progress. -/
def serverDemo : ServerProc :=
  { relay := relayDemo, stopping := false, serverCloseInitiated := false,
    closeCalled := [], exitCode := none }

/-- **C7 witness.** At the failing input, the signal exits with code 0 while
the web client (id 2) is still tracked and no `close()` was ever invoked;
the server `close` event dispatched afterwards changes nothing; a second
signal is ignored. -/
theorem signal_exits_without_cleanup_witness :
    (handleSignal serverDemo).exitCode = some 0
    ∧ (handleSignal serverDemo).relay.webClients = [2]
    ∧ (handleSignal serverDemo).closeCalled = []
    ∧ stepProc (handleSignal serverDemo) ProcEvent.serverCloseEvent
        = handleSignal serverDemo
    ∧ handleSignal (handleSignal serverDemo) = handleSignal serverDemo := by
  have h := (signal_exits_without_cleanup serverDemo).1 rfl
  refine ⟨h.1, ?_, ?_, h.2.2.2.2 ProcEvent.serverCloseEvent, ?_⟩
  · rw [h.2.2.1]
    decide
  · rw [h.2.2.2.1]
    rfl
  · exact (signal_exits_without_cleanup (handleSignal serverDemo)).2.1 h.2.1
